import Mathlib

/-!
Verification of the NeuraVia adaptive cognitive test system.

The item selector `get_random_question` is embedded from
`src/utils/csv_editor.py`.  The adaptive engine (`AdaptiveTestingEngine`
in `adaptive_selector.py`) is not present in the repository sources; its
components (performance window, difficulty adapter, session aggregate,
orchestrator) are modelled from the specification, as marked on each
definition.
-/

namespace NeuraVia

/-- A question row of a backing CSV file (`questions/*.csv`): it carries at
least an opaque identifier and a `difficulty` column; all remaining content
columns are collapsed into one opaque field, which the selector never
inspects. -/
structure Question where
  id : Nat
  difficulty : Int
  content : String
deriving DecidableEq, Repr, Inhabited

/-- The exceptions `get_random_question` in `src/utils/csv_editor.py` can
raise: `ValueError` for an out-of-range difficulty, `FileNotFoundError`
when the CSV path does not exist. -/
inductive SelError where
  | valueError
  | fileNotFoundError
deriving DecidableEq, Repr

/-- Positions (the default pandas RangeIndex `0..n-1` assigned by
`pd.read_csv`) of the rows whose `difficulty` column equals `d`; this is the
index of `df[df['difficulty'] == difficulty_level]` in
`src/utils/csv_editor.py` line 28. -/
def filteredIndices (rows : List Question) (d : Int) : List Nat :=
  (List.range rows.length).filter (fun i => (rows.getD i default).difficulty == d)

/-- Shallow embedding of `get_random_question(difficulty_level, csv_file_path)`
from `src/utils/csv_editor.py` lines 16-39.  The CSV file state is `none` when
the file does not exist and `some rows` otherwise.  `choice` resolves
`random.choice(filtered_questions.index)`: the draw picks entry
`choice % length` of the filtered index list.  The result pairs the Python
return/raise outcome with the file state after the call (`df.drop` followed by
`df.to_csv` persists the removal; error paths never touch the file). -/
def get_random_question (difficulty_level : Int) (fileState : Option (List Question))
    (choice : Nat) : Except SelError (Option Question) × Option (List Question) :=
  if difficulty_level = 1 ∨ difficulty_level = 2 ∨ difficulty_level = 3 then
    match fileState with
    | none => (Except.error SelError.fileNotFoundError, none)
    | some rows =>
      let idxs := filteredIndices rows difficulty_level
      if idxs.length = 0 then (Except.ok none, some rows)
      else
        let selIdx := idxs.getD (choice % idxs.length) 0
        (Except.ok (some (rows.getD selIdx default)), some (rows.eraseIdx selIdx))
  else (Except.error SelError.valueError, fileState)

/-- A session of selector calls sharing one CSV file: each request carries the
target difficulty and the random draw; the file state is threaded from call to
call (each call re-reads the CSV the previous call wrote).  Collects the
questions actually returned, in call order, together with the final file
state. -/
def runSelector : Option (List Question) → List (Int × Nat) →
    List Question × Option (List Question)
  | st, [] => ([], st)
  | st, (d, c) :: reqs =>
    let res := get_random_question d st c
    let rest := runSelector res.2 reqs
    match res.1 with
    | Except.ok (some q) => (q :: rest.1, rest.2)
    | Except.ok none => rest
    | Except.error _ => rest

/-- Modelled from the spec: `ResponseRecord` (spec section 3) — the engine file
`adaptive_selector.py` is absent from the sources, so the record of one
administered item's outcome follows the spec's data model. -/
structure ResponseRecord where
  question_id : Nat
  correct : Bool
  time_seconds : ℚ
  difficulty : Int
deriving DecidableEq, Repr, Inhabited

/-- Modelled from the spec: the externally configurable tuning surface of the
Difficulty Adapter (spec sections 4.2 and 6): difficulty bounds, high/low
accuracy thresholds, fast-response cutoff. -/
structure AdapterConfig where
  minDifficulty : Int
  maxDifficulty : Int
  highThreshold : ℚ
  lowThreshold : ℚ
  fastThreshold : ℚ
deriving Repr

/-- Modelled from the spec: `PerformanceWindow.push` (spec section 4.1) —
append, and evict the oldest record when the resulting size exceeds the
configured window size. -/
def windowPush (window_size : Nat) (w : List ResponseRecord) (r : ResponseRecord) :
    List ResponseRecord :=
  let w' := w ++ [r]
  if window_size < w'.length then w'.tail else w'

/-- Modelled from the spec: a sequence of pushes into an initially empty
Performance Window (spec sections 4.1 and 8). -/
def pushAll (window_size : Nat) (rs : List ResponseRecord) : List ResponseRecord :=
  rs.foldl (windowPush window_size) []

/-- Modelled from the spec: `accuracy()` (spec section 4.1) — fraction of
correct records in the window, neutral default 1/2 on an empty window. -/
def windowAccuracy (w : List ResponseRecord) : ℚ :=
  if w.length = 0 then 1/2
  else ((w.filter (fun r => r.correct)).length : ℚ) / (w.length : ℚ)

/-- Modelled from the spec: `mean_time()` (spec section 4.1) — arithmetic mean
of `time_seconds` in the window, with an empty-window fallback instead of a
divide-by-zero. -/
def windowMeanTime (w : List ResponseRecord) : ℚ :=
  if w.length = 0 then 0
  else (w.map (fun r => r.time_seconds)).sum / (w.length : ℚ)

/-- Modelled from the spec: the Difficulty Adapter (spec section 4.2) — the
priority-ordered decision rule (fast-and-accurate, accurate, inaccurate, hold)
followed by clamping to `[minDifficulty, maxDifficulty]`. -/
def adaptDifficulty (cfg : AdapterConfig) (current : Int) (w : List ResponseRecord) : Int :=
  let a := windowAccuracy w
  let t := windowMeanTime w
  let next :=
    if cfg.highThreshold ≤ a ∧ t < cfg.fastThreshold then current + 1
    else if cfg.highThreshold ≤ a then current + 1
    else if a ≤ cfg.lowThreshold then current - 1
    else current
  max cfg.minDifficulty (min cfg.maxDifficulty next)

/-- Modelled from the spec: `SessionAggregate` (spec section 3) — whole-session
running totals. -/
structure SessionAggregate where
  total_questions : Nat
  total_correct : Nat
  sum_difficulty : Int
  sum_time : ℚ
deriving DecidableEq, Repr

/-- Modelled from the spec: the aggregate at engine construction (spec
section 3, lifecycle: initialized to zero). -/
def aggInit : SessionAggregate := ⟨0, 0, 0, 0⟩

/-- Modelled from the spec: `record(response)` of the Performance Aggregator
(spec section 4.4). -/
def aggRecord (a : SessionAggregate) (r : ResponseRecord) : SessionAggregate :=
  { total_questions := a.total_questions + 1
    total_correct := a.total_correct + (if r.correct then 1 else 0)
    sum_difficulty := a.sum_difficulty + r.difficulty
    sum_time := a.sum_time + r.time_seconds }

/-- Modelled from the spec: the `overall_accuracy` component of `summary()`
(spec section 4.4): `total_correct/total_questions`, 0 when no questions. -/
def aggOverallAccuracy (a : SessionAggregate) : ℚ :=
  if a.total_questions = 0 then 0
  else (a.total_correct : ℚ) / (a.total_questions : ℚ)

/-- Modelled from the spec: the summary record returned by
`get_performance_summary` (spec sections 4.4 and 6). -/
structure Summary where
  total_questions : Nat
  overall_accuracy : ℚ
  average_difficulty : ℚ
  average_time : ℚ
deriving DecidableEq, Repr

/-- Modelled from the spec: the `AdaptiveTestingEngine` state (spec
section 4.5): configured window size, engine-owned Performance Window, and
Session Aggregate. -/
structure AdaptiveTestingEngine where
  window_size : Nat
  window : List ResponseRecord
  aggregate : SessionAggregate
deriving Repr

/-- Modelled from the spec: a fresh engine, `AdaptiveTestingEngine(window_size=n)`
(INIT state: window empty, aggregate zero). -/
def engineInit (n : Nat) : AdaptiveTestingEngine := ⟨n, [], aggInit⟩

/-- Modelled from the spec: `update_performance_model(response)` (spec
section 4.5) — append to the Performance Window and record into the
Aggregator. -/
def update_performance_model (e : AdaptiveTestingEngine) (r : ResponseRecord) :
    AdaptiveTestingEngine :=
  { e with window := windowPush e.window_size e.window r
           aggregate := aggRecord e.aggregate r }

/-- Modelled from the spec: a session of `update_performance_model` calls in
administration order. -/
def engineRun (e : AdaptiveTestingEngine) (rs : List ResponseRecord) : AdaptiveTestingEngine :=
  rs.foldl update_performance_model e

/-- Modelled from the spec: `get_performance_summary()` (spec sections 4.4 and
4.5) — read-only snapshot of the aggregate with 0 fallbacks on an empty
session. -/
def get_performance_summary (e : AdaptiveTestingEngine) : Summary :=
  { total_questions := e.aggregate.total_questions
    overall_accuracy := aggOverallAccuracy e.aggregate
    average_difficulty :=
      if e.aggregate.total_questions = 0 then 0
      else (e.aggregate.sum_difficulty : ℚ) / (e.aggregate.total_questions : ℚ)
    average_time :=
      if e.aggregate.total_questions = 0 then 0
      else e.aggregate.sum_time / (e.aggregate.total_questions : ℚ) }

/-- Modelled from the spec: `select_next_question` (spec section 4.5) — run the
Difficulty Adapter on the engine-owned window (the `response_history` argument
is only the caller's view; the engine owns window truth), then the Item
Selector (spec section 4.3) at the resulting difficulty over the injected
pool; returns `(none, d)` with the pool untouched when the pool holds no item
at difficulty `d`. -/
def select_next_question (cfg : AdapterConfig) (e : AdaptiveTestingEngine) (current : Int)
    (response_history : List ResponseRecord) (pool : List Question) (choice : Nat) :
    Option Question × Int × List Question :=
  let d := adaptDifficulty cfg current e.window
  let idxs := filteredIndices pool d
  if idxs.length = 0 then (none, d, pool)
  else
    let i := idxs.getD (choice % idxs.length) 0
    (some (pool.getD i default), d, pool.eraseIdx i)

/-- Modelled from the spec: a concrete configuration using the spec's example
thresholds (spec section 4.2: high 0.8, low 0.4), the repository's difficulty
range 1..3, and a 10-second fast-response cutoff. -/
def cfg0 : AdapterConfig := ⟨1, 3, 4/5, 2/5, 10⟩

/-- Scenario response of spec section 8: a correct answer at difficulty 1. -/
def respCorrect1 : ResponseRecord := ⟨101, true, 20, 1⟩

/-- Scenario response of spec section 8: an incorrect answer at difficulty 2. -/
def respWrong2 : ResponseRecord := ⟨102, false, 20, 2⟩

/-- Concrete three-question pool used to evaluate the selector theorems. -/
def sampleRows : List Question :=
  [⟨1, 1, "q1"⟩, ⟨2, 1, "q2"⟩, ⟨3, 2, "q3"⟩]

/-- Concrete request sequence (difficulty, random draw) used to evaluate a
selector session. -/
def sampleReqs : List (Int × Nat) := [(1, 0), (1, 0), (2, 0), (3, 5)]

theorem mem_filteredIndices {rows : List Question} {d : Int} {i : Nat} :
    i ∈ filteredIndices rows d ↔ i < rows.length ∧ (rows.getD i default).difficulty = d := by
  simp [filteredIndices, List.mem_filter, List.mem_range]

theorem nodup_filteredIndices (rows : List Question) (d : Int) :
    (filteredIndices rows d).Nodup :=
  List.Nodup.filter _ (List.nodup_range _)

theorem getD_of_lt {α : Type} (l : List α) (n : Nat) (a : α) (h : n < l.length) :
    l.getD n a = l[n] := by
  simp [List.getD_eq_getElem?_getD, List.getElem?_eq_getElem h]

theorem selIdx_mem (idxs : List Nat) (h : idxs ≠ []) (c : Nat) :
    idxs.getD (c % idxs.length) 0 ∈ idxs := by
  have hlen : 0 < idxs.length := List.length_pos.mpr h
  have hc : c % idxs.length < idxs.length := Nat.mod_lt _ hlen
  rw [getD_of_lt _ _ _ hc]
  exact List.getElem_mem hc

theorem get_random_question_of_bad_difficulty (d : Int)
    (hd : ¬(d = 1 ∨ d = 2 ∨ d = 3)) (st : Option (List Question)) (c : Nat) :
    get_random_question d st c = (Except.error SelError.valueError, st) := by
  simp [get_random_question, hd]

theorem get_random_question_of_missing_file (d : Int)
    (hd : d = 1 ∨ d = 2 ∨ d = 3) (c : Nat) :
    get_random_question d none c = (Except.error SelError.fileNotFoundError, none) := by
  simp [get_random_question, hd]

theorem get_random_question_of_exhausted (d : Int) (hd : d = 1 ∨ d = 2 ∨ d = 3)
    (rows : List Question) (h : filteredIndices rows d = []) (c : Nat) :
    get_random_question d (some rows) c = (Except.ok none, some rows) := by
  simp [get_random_question, hd, h]

theorem get_random_question_of_available (d : Int) (hd : d = 1 ∨ d = 2 ∨ d = 3)
    (rows : List Question) (h : filteredIndices rows d ≠ []) (c : Nat) :
    get_random_question d (some rows) c =
      (Except.ok (some (rows.getD
          ((filteredIndices rows d).getD (c % (filteredIndices rows d).length) 0) default)),
       some (rows.eraseIdx
          ((filteredIndices rows d).getD (c % (filteredIndices rows d).length) 0))) := by
  have hlen : ¬ (filteredIndices rows d).length = 0 := by
    simpa [List.length_eq_zero] using h
  simp [get_random_question, hd, hlen]

theorem grq_cases (d : Int) (rows : List Question) (c : Nat) :
    get_random_question d (some rows) c = (Except.error SelError.valueError, some rows) ∨
    get_random_question d (some rows) c = (Except.ok none, some rows) ∨
    ∃ i, ∃ h : i < rows.length, (rows.getD i default).difficulty = d ∧
      get_random_question d (some rows) c = (Except.ok (some rows[i]), some (rows.eraseIdx i)) := by
  by_cases hd : d = 1 ∨ d = 2 ∨ d = 3
  · by_cases hemp : filteredIndices rows d = []
    · exact Or.inr (Or.inl (get_random_question_of_exhausted d hd rows hemp c))
    · refine Or.inr (Or.inr ?_)
      set i := (filteredIndices rows d).getD (c % (filteredIndices rows d).length) 0 with hi
      have himem : i ∈ filteredIndices rows d := selIdx_mem _ hemp c
      obtain ⟨hlt, hdiff⟩ := mem_filteredIndices.mp himem
      refine ⟨i, hlt, hdiff, ?_⟩
      rw [get_random_question_of_available d hd rows hemp c, ← hi, getD_of_lt _ _ _ hlt]
  · exact Or.inl (get_random_question_of_bad_difficulty d hd (some rows) c)

theorem cons_eraseIdx_perm (rows : List Question) (i : Nat) (h : i < rows.length) :
    List.Perm (rows[i] :: rows.eraseIdx i) rows := by
  rw [List.eraseIdx_eq_take_drop_succ]
  have hmid : List.Perm (rows[i] :: (rows.take i ++ rows.drop (i + 1)))
      (rows.take i ++ rows[i] :: rows.drop (i + 1)) := List.perm_middle.symm
  have heq : rows.take i ++ rows[i] :: rows.drop (i + 1) = rows := by
    rw [← List.drop_eq_getElem_cons h, List.take_append_drop]
  rw [heq] at hmid
  exact hmid

theorem runSelector_perm : ∀ (reqs : List (Int × Nat)) (rows : List Question),
    ∃ rows', (runSelector (some rows) reqs).2 = some rows' ∧
      List.Perm ((runSelector (some rows) reqs).1 ++ rows') rows := by
  intro reqs
  induction reqs with
  | nil => exact fun rows => ⟨rows, rfl, by simp [runSelector]⟩
  | cons req reqs ih =>
    intro rows
    obtain ⟨d, c⟩ := req
    rcases grq_cases d rows c with hcase | hcase | ⟨i, hlt, _, hcase⟩
    · obtain ⟨rows', h1, h2⟩ := ih rows
      exact ⟨rows', by simp [runSelector, hcase, h1], by simpa [runSelector, hcase] using h2⟩
    · obtain ⟨rows', h1, h2⟩ := ih rows
      exact ⟨rows', by simp [runSelector, hcase, h1], by simpa [runSelector, hcase] using h2⟩
    · obtain ⟨rows', h1, h2⟩ := ih (rows.eraseIdx i)
      refine ⟨rows', by simp [runSelector, hcase, h1], ?_⟩
      have hstep : List.Perm
          (rows[i] :: ((runSelector (some (rows.eraseIdx i)) reqs).1 ++ rows'))
          (rows[i] :: rows.eraseIdx i) := h2.cons _
      have hfin : List.Perm
          (rows[i] :: ((runSelector (some (rows.eraseIdx i)) reqs).1 ++ rows')) rows :=
        hstep.trans (cons_eraseIdx_perm rows i hlt)
      simpa [runSelector, hcase] using hfin

/-- C1: at-most-once delivery — across any sequence of `get_random_question`
calls threaded through the same backing CSV (whose question ids are unique, as
the data model requires), no question id is returned twice, and every returned
question was removed from the CSV as part of its call: its id is absent from
the final file state. -/
theorem at_most_once_delivery (rows : List Question) (reqs : List (Int × Nat))
    (hids : (rows.map Question.id).Nodup) :
    ∃ rows', (runSelector (some rows) reqs).2 = some rows' ∧
      ((runSelector (some rows) reqs).1.map Question.id).Nodup ∧
      ∀ q ∈ (runSelector (some rows) reqs).1, q.id ∉ rows'.map Question.id := by
  obtain ⟨rows', h1, h2⟩ := runSelector_perm reqs rows
  have hperm : List.Perm (((runSelector (some rows) reqs).1 ++ rows').map Question.id)
      (rows.map Question.id) := h2.map _
  rw [List.map_append] at hperm
  have hnd : ((runSelector (some rows) reqs).1.map Question.id ++
      rows'.map Question.id).Nodup := hperm.symm.nodup hids
  refine ⟨rows', h1, hnd.of_append_left, ?_⟩
  intro q hq hmem
  exact List.disjoint_of_nodup_append hnd (List.mem_map_of_mem _ hq) hmem

/-- Witness for C1 on the concrete pool `sampleRows` and request sequence
`sampleReqs`. -/
theorem at_most_once_delivery_witness :
    ∃ rows', (runSelector (some sampleRows) sampleReqs).2 = some rows' ∧
      ((runSelector (some sampleRows) sampleReqs).1.map Question.id).Nodup ∧
      ∀ q ∈ (runSelector (some sampleRows) sampleReqs).1,
        q.id ∉ rows'.map Question.id :=
  at_most_once_delivery sampleRows sampleReqs (by decide)

/-- C2: selector success contract — when the CSV holds at least one row at an
in-range target difficulty `d`, `get_random_question` picks among exactly the
rows whose difficulty equals `d` (first conjunct characterises the candidate
index set; the duplicate-free index list together with the range-enumeration
identity shows a uniform draw over `choice` reaches each candidate exactly
once), removes the chosen row from the CSV, and returns it with difficulty
`d`. -/
theorem selector_success_contract (d : Int) (rows : List Question) (choice : Nat)
    (hd : d = 1 ∨ d = 2 ∨ d = 3) (h : filteredIndices rows d ≠ []) :
    (∀ k, k ∈ filteredIndices rows d ↔
        k < rows.length ∧ (rows.getD k default).difficulty = d) ∧
    (filteredIndices rows d).Nodup ∧
    (List.range (filteredIndices rows d).length).map
        (fun c => (filteredIndices rows d).getD (c % (filteredIndices rows d).length) 0)
      = filteredIndices rows d ∧
    ∃ i, i = (filteredIndices rows d).getD (choice % (filteredIndices rows d).length) 0 ∧
      i ∈ filteredIndices rows d ∧
      ∃ hi : i < rows.length,
        get_random_question d (some rows) choice =
          (Except.ok (some rows[i]), some (rows.eraseIdx i)) ∧
        rows[i].difficulty = d := by
  refine ⟨fun k => mem_filteredIndices, nodup_filteredIndices rows d, ?_, ?_⟩
  · apply List.ext_getElem
    · simp
    · intro c h1 h2
      have hc : c < (filteredIndices rows d).length := by simpa using h2
      rw [List.getElem_map, List.getElem_range, Nat.mod_eq_of_lt hc, getD_of_lt _ _ _ hc]
  · set i := (filteredIndices rows d).getD (choice % (filteredIndices rows d).length) 0
      with hidef
    have himem : i ∈ filteredIndices rows d := selIdx_mem _ h choice
    obtain ⟨hlt, hdiff⟩ := mem_filteredIndices.mp himem
    refine ⟨i, hidef, himem, hlt, ?_, ?_⟩
    · rw [get_random_question_of_available d hd rows h choice, ← hidef,
        getD_of_lt _ _ _ hlt]
    · rw [← getD_of_lt _ _ default hlt]
      exact hdiff

/-- Witness for C2 at the concrete pool `sampleRows`, difficulty 1, draw 1. -/
theorem selector_success_contract_witness :
    (∀ k, k ∈ filteredIndices sampleRows 1 ↔
        k < sampleRows.length ∧ (sampleRows.getD k default).difficulty = 1) ∧
    (filteredIndices sampleRows 1).Nodup ∧
    (List.range (filteredIndices sampleRows 1).length).map
        (fun c => (filteredIndices sampleRows 1).getD
          (c % (filteredIndices sampleRows 1).length) 0)
      = filteredIndices sampleRows 1 ∧
    ∃ i, i = (filteredIndices sampleRows 1).getD
        (1 % (filteredIndices sampleRows 1).length) 0 ∧
      i ∈ filteredIndices sampleRows 1 ∧
      ∃ hi : i < sampleRows.length,
        get_random_question 1 (some sampleRows) 1 =
          (Except.ok (some (sampleRows[i])), some (sampleRows.eraseIdx i)) ∧
        (sampleRows[i]).difficulty = 1 :=
  selector_success_contract 1 sampleRows 1 (by decide) (by decide)

/-- C9: selector error atomicity — an out-of-range difficulty raises
`ValueError` with the file state untouched (whether or not the file exists),
and an in-range difficulty with a missing CSV raises `FileNotFoundError`; no
file is modified on either error path. -/
theorem selector_error_atomicity (d : Int) (st : Option (List Question)) (choice : Nat) :
    (¬(d = 1 ∨ d = 2 ∨ d = 3) →
      get_random_question d st choice = (Except.error SelError.valueError, st)) ∧
    ((d = 1 ∨ d = 2 ∨ d = 3) → st = none →
      get_random_question d st choice = (Except.error SelError.fileNotFoundError, none)) :=
  ⟨fun hd => get_random_question_of_bad_difficulty d hd st choice,
   fun hd hst => by rw [hst]; exact get_random_question_of_missing_file d hd choice⟩

/-- Witness for C9: difficulty 5 on an existing file raises `ValueError` and
leaves the file as it was; difficulty 2 on a missing file raises
`FileNotFoundError`. -/
theorem selector_error_atomicity_witness :
    get_random_question 5 (some sampleRows) 0 =
      (Except.error SelError.valueError, some sampleRows) ∧
    get_random_question 2 none 0 = (Except.error SelError.fileNotFoundError, none) :=
  ⟨(selector_error_atomicity 5 (some sampleRows) 0).1 (by decide),
   (selector_error_atomicity 2 none 0).2 (by decide) rfl⟩

/-- C10: selection frame property — every successful `get_random_question`
call leaves the persisted CSV holding exactly the previous rows minus the
single selected row: the new contents are the prefix before the selected
position followed by the suffix after it (no other row added, removed or
altered, order preserved), one row shorter, and a sublist of the old
contents. -/
theorem selector_frame_property (d : Int) (rows rows' : List Question) (q : Question)
    (choice : Nat)
    (h : get_random_question d (some rows) choice = (Except.ok (some q), some rows')) :
    ∃ i, ∃ hi : i < rows.length, rows[i] = q ∧
      rows' = rows.eraseIdx i ∧
      rows' = rows.take i ++ rows.drop (i + 1) ∧
      rows'.length + 1 = rows.length ∧
      rows'.Sublist rows := by
  rcases grq_cases d rows choice with hc | hc | ⟨i, hlt, _, hc⟩
  · rw [h] at hc
    simp at hc
  · rw [h] at hc
    simp at hc
  · rw [h] at hc
    have hq : q = rows[i] := by
      have := congrArg Prod.fst hc
      simpa using this
    have hrows : rows' = rows.eraseIdx i := by
      have := congrArg Prod.snd hc
      simpa using this
    refine ⟨i, hlt, hq.symm, hrows, ?_, ?_, ?_⟩
    · rw [hrows, List.eraseIdx_eq_take_drop_succ]
    · rw [hrows, List.length_eraseIdx_of_lt hlt]
      omega
    · rw [hrows]
      exact List.eraseIdx_sublist rows i

/-- Witness for C10: selecting at difficulty 2 with draw 0 from `sampleRows`
removes exactly the third row. -/
theorem selector_frame_property_witness :
    ∃ i, ∃ hi : i < sampleRows.length, sampleRows[i] = ⟨3, 2, "q3"⟩ ∧
      [(⟨1, 1, "q1"⟩ : Question), ⟨2, 1, "q2"⟩] = sampleRows.eraseIdx i ∧
      [(⟨1, 1, "q1"⟩ : Question), ⟨2, 1, "q2"⟩] =
        sampleRows.take i ++ sampleRows.drop (i + 1) ∧
      ([(⟨1, 1, "q1"⟩ : Question), ⟨2, 1, "q2"⟩] : List Question).length + 1 =
        sampleRows.length ∧
      ([(⟨1, 1, "q1"⟩ : Question), ⟨2, 1, "q2"⟩] : List Question).Sublist sampleRows :=
  selector_frame_property 2 sampleRows [⟨1, 1, "q1"⟩, ⟨2, 1, "q2"⟩] ⟨3, 2, "q3"⟩ 0 rfl

theorem windowPush_eq (N : Nat) (w : List ResponseRecord) (r : ResponseRecord)
    (h : w.length ≤ N) :
    windowPush N w r = (w ++ [r]).drop (w.length + 1 - N) := by
  simp only [windowPush]
  by_cases hN : N < (w ++ [r]).length
  · have hlen : (w ++ [r]).length = w.length + 1 := by simp
    rw [hlen] at hN
    have h1 : w.length + 1 - N = 1 := by omega
    simp [hN, h1, List.drop_one]
  · have hlen : (w ++ [r]).length = w.length + 1 := by simp
    rw [hlen] at hN
    have h0 : w.length + 1 - N = 0 := by omega
    simp only [hlen]
    simp [hN, h0]

theorem foldl_windowPush_eq (N : Nat) (rs : List ResponseRecord) :
    ∀ w : List ResponseRecord, w.length ≤ N →
      rs.foldl (windowPush N) w = (w ++ rs).drop ((w ++ rs).length - N) := by
  induction rs with
  | nil =>
    intro w h
    have h0 : w.length - N = 0 := by omega
    simp [h0]
  | cons r rs ih =>
    intro w h
    rw [List.foldl_cons, windowPush_eq N w r h]
    have hk : w.length + 1 - N ≤ (w ++ [r]).length := by
      have hlen : (w ++ [r]).length = w.length + 1 := by simp
      omega
    have hlen2 : ((w ++ [r]).drop (w.length + 1 - N)).length ≤ N := by
      have hlen : (w ++ [r]).length = w.length + 1 := by simp
      rw [List.length_drop, hlen]
      omega
    rw [ih _ hlen2, ← List.drop_append_of_le_length hk, List.drop_drop]
    have hX : (w ++ [r]) ++ rs = w ++ r :: rs := by simp
    rw [hX]
    congr 1
    simp only [List.length_drop, List.length_append, List.length_cons, List.length_nil]
    omega

theorem pushAll_eq (N : Nat) (rs : List ResponseRecord) :
    pushAll N rs = rs.drop (rs.length - N) := by
  have hres := foldl_windowPush_eq N rs [] (by simp)
  simpa [pushAll] using hres

/-- C5: window bound and FIFO order — for every sequence of pushes into a
Performance Window of size `N`, the window length never exceeds `N`, and once
at least `N` records have been pushed the window holds exactly the last `N`
pushed records in administration order (oldest evicted first). -/
theorem window_bound_fifo (N : Nat) (rs : List ResponseRecord) :
    (pushAll N rs).length ≤ N ∧
    (N ≤ rs.length → pushAll N rs = rs.drop (rs.length - N)) := by
  constructor
  · rw [pushAll_eq, List.length_drop]
    omega
  · intro _
    exact pushAll_eq N rs

/-- Witness for C5 with `window_size = 3` and four pushed records. -/
theorem window_bound_fifo_witness :
    (pushAll 3 [respCorrect1, respCorrect1, respCorrect1, respWrong2]).length ≤ 3 ∧
    pushAll 3 [respCorrect1, respCorrect1, respCorrect1, respWrong2] =
      [respCorrect1, respCorrect1, respCorrect1, respWrong2].drop
        ([respCorrect1, respCorrect1, respCorrect1, respWrong2].length - 3) :=
  ⟨(window_bound_fifo 3 [respCorrect1, respCorrect1, respCorrect1, respWrong2]).1,
   (window_bound_fifo 3 [respCorrect1, respCorrect1, respCorrect1, respWrong2]).2
     (by decide)⟩

theorem adaptDifficulty_of_high (cfg : AdapterConfig) (current : Int)
    (w : List ResponseRecord) (hhi : cfg.highThreshold ≤ windowAccuracy w) :
    adaptDifficulty cfg current w =
      max cfg.minDifficulty (min cfg.maxDifficulty (current + 1)) := by
  simp only [adaptDifficulty]
  by_cases hf : windowMeanTime w < cfg.fastThreshold
  · rw [if_pos ⟨hhi, hf⟩]
  · rw [if_neg (fun hand => hf hand.2), if_pos hhi]

theorem adaptDifficulty_of_low (cfg : AdapterConfig) (current : Int)
    (w : List ResponseRecord) (hhi : ¬ cfg.highThreshold ≤ windowAccuracy w)
    (hlo : windowAccuracy w ≤ cfg.lowThreshold) :
    adaptDifficulty cfg current w =
      max cfg.minDifficulty (min cfg.maxDifficulty (current - 1)) := by
  simp only [adaptDifficulty]
  rw [if_neg (fun hand => hhi hand.1), if_neg hhi, if_pos hlo]

theorem adaptDifficulty_of_between (cfg : AdapterConfig) (current : Int)
    (w : List ResponseRecord) (hhi : ¬ cfg.highThreshold ≤ windowAccuracy w)
    (hlo : ¬ windowAccuracy w ≤ cfg.lowThreshold) :
    adaptDifficulty cfg current w =
      max cfg.minDifficulty (min cfg.maxDifficulty current) := by
  simp only [adaptDifficulty]
  rw [if_neg (fun hand => hhi hand.1), if_neg hhi, if_neg hlo]

/-- C4: clamping/saturation — every Difficulty Adapter step lands in
`[minDifficulty, maxDifficulty]`; an increase requested at `maxDifficulty`
saturates at `maxDifficulty` and a decrease requested at `minDifficulty`
saturates at `minDifficulty`. -/
theorem adapter_clamped (cfg : AdapterConfig) (h : cfg.minDifficulty ≤ cfg.maxDifficulty)
    (current : Int) (w : List ResponseRecord) :
    cfg.minDifficulty ≤ adaptDifficulty cfg current w ∧
    adaptDifficulty cfg current w ≤ cfg.maxDifficulty ∧
    (current = cfg.maxDifficulty → cfg.highThreshold ≤ windowAccuracy w →
      adaptDifficulty cfg current w = cfg.maxDifficulty) ∧
    (current = cfg.minDifficulty → windowAccuracy w ≤ cfg.lowThreshold →
      windowAccuracy w < cfg.highThreshold →
      adaptDifficulty cfg current w = cfg.minDifficulty) := by
  have hshape : ∃ v, adaptDifficulty cfg current w =
      max cfg.minDifficulty (min cfg.maxDifficulty v) := by
    by_cases hhi : cfg.highThreshold ≤ windowAccuracy w
    · exact ⟨current + 1, adaptDifficulty_of_high cfg current w hhi⟩
    · by_cases hlo : windowAccuracy w ≤ cfg.lowThreshold
      · exact ⟨current - 1, adaptDifficulty_of_low cfg current w hhi hlo⟩
      · exact ⟨current, adaptDifficulty_of_between cfg current w hhi hlo⟩
  obtain ⟨v, hv⟩ := hshape
  refine ⟨?_, ?_, ?_, ?_⟩
  · rw [hv]
    exact le_max_left _ _
  · rw [hv]
    exact max_le h (min_le_left _ _)
  · intro hcur hacc
    subst hcur
    rw [adaptDifficulty_of_high cfg _ w hacc]
    omega
  · intro hcur hlo hnothigh
    subst hcur
    rw [adaptDifficulty_of_low cfg _ w (not_le.mpr hnothigh) hlo]
    omega

/-- Witness for C4 at the concrete configuration `cfg0`, current difficulty 2,
empty window. -/
theorem adapter_clamped_witness :
    cfg0.minDifficulty ≤ adaptDifficulty cfg0 2 [] ∧
    adaptDifficulty cfg0 2 [] ≤ cfg0.maxDifficulty ∧
    ((2 : Int) = cfg0.maxDifficulty → cfg0.highThreshold ≤ windowAccuracy [] →
      adaptDifficulty cfg0 2 [] = cfg0.maxDifficulty) ∧
    ((2 : Int) = cfg0.minDifficulty → windowAccuracy [] ≤ cfg0.lowThreshold →
      windowAccuracy [] < cfg0.highThreshold →
      adaptDifficulty cfg0 2 [] = cfg0.minDifficulty) :=
  adapter_clamped cfg0 (by decide) 2 []

theorem foldl_aggRecord_totals : ∀ (rs : List ResponseRecord) (a : SessionAggregate),
    (rs.foldl aggRecord a).total_questions = a.total_questions + rs.length ∧
    (rs.foldl aggRecord a).total_correct =
      a.total_correct + (rs.filter (fun x => x.correct)).length
  | [], a => by simp
  | r :: rs, a => by
    obtain ⟨h1, h2⟩ := foldl_aggRecord_totals rs (aggRecord a r)
    constructor
    · rw [List.foldl_cons, h1]
      simp [aggRecord]
      omega
    · rw [List.foldl_cons, h2]
      by_cases hc : r.correct <;> simp [aggRecord, hc, List.filter_cons] <;> omega

theorem engineRun_aggregate : ∀ (rs : List ResponseRecord) (e : AdaptiveTestingEngine),
    (engineRun e rs).aggregate = rs.foldl aggRecord e.aggregate
  | [], _ => rfl
  | r :: rs, e => by
    have ih := engineRun_aggregate rs (update_performance_model e r)
    simpa [engineRun, List.foldl_cons, update_performance_model] using ih

/-- C6: aggregate monotonicity and consistency — each
`update_performance_model` call leaves `total_questions` and `total_correct`
no smaller; over any session from a fresh engine, `total_correct` never
exceeds `total_questions`, the stored sums agree with an independent recount
of all records ever recorded, and the overall accuracy computed from the
stored sums equals the recounted accuracy. -/
theorem aggregate_monotone_consistent (n : Nat) (rs : List ResponseRecord)
    (e : AdaptiveTestingEngine) (r : ResponseRecord) :
    e.aggregate.total_questions ≤
      (update_performance_model e r).aggregate.total_questions ∧
    e.aggregate.total_correct ≤ (update_performance_model e r).aggregate.total_correct ∧
    (engineRun (engineInit n) rs).aggregate.total_questions = rs.length ∧
    (engineRun (engineInit n) rs).aggregate.total_correct =
      (rs.filter (fun x => x.correct)).length ∧
    (engineRun (engineInit n) rs).aggregate.total_correct ≤
      (engineRun (engineInit n) rs).aggregate.total_questions ∧
    aggOverallAccuracy (engineRun (engineInit n) rs).aggregate =
      (if rs.length = 0 then 0
       else ((rs.filter (fun x => x.correct)).length : ℚ) / (rs.length : ℚ)) := by
  have htotals := foldl_aggRecord_totals rs aggInit
  have hagg := engineRun_aggregate rs (engineInit n)
  have h1 : (engineRun (engineInit n) rs).aggregate.total_questions = rs.length := by
    rw [hagg]
    simpa [engineInit, aggInit] using htotals.1
  have h2 : (engineRun (engineInit n) rs).aggregate.total_correct =
      (rs.filter (fun x => x.correct)).length := by
    rw [hagg]
    simpa [engineInit, aggInit] using htotals.2
  refine ⟨?_, ?_, h1, h2, ?_, ?_⟩
  · simp [update_performance_model, aggRecord]
  · by_cases hc : r.correct <;> simp [update_performance_model, aggRecord, hc]
  · rw [h1, h2]
    exact List.length_filter_le _ _
  · simp only [aggOverallAccuracy, h1, h2]

/-- C7: empty-history fallbacks — on a freshly constructed engine,
`get_performance_summary()` returns zero total questions, zero overall
accuracy, zero average difficulty (and zero average time); the 0 fallbacks are
taken instead of dividing by the zero question count. -/
theorem empty_history_summary (n : Nat) :
    get_performance_summary (engineInit n) =
      { total_questions := 0, overall_accuracy := 0, average_difficulty := 0,
        average_time := 0 } := rfl

/-- C3: pool exhaustion is non-fatal — for an in-range difficulty with no rows
at that difficulty, `get_random_question` returns `None` and leaves the CSV
unchanged; and `select_next_question` at a target difficulty with an empty
pool tier returns `(none, target difficulty)` with the pool untouched. -/
theorem pool_exhaustion_non_fatal (d : Int) (hd : d = 1 ∨ d = 2 ∨ d = 3)
    (rows : List Question) (hrows : filteredIndices rows d = []) (choice : Nat)
    (cfg : AdapterConfig) (e : AdaptiveTestingEngine) (current : Int)
    (hist : List ResponseRecord) (pool : List Question)
    (hpool : filteredIndices pool (adaptDifficulty cfg current e.window) = [])
    (c2 : Nat) :
    get_random_question d (some rows) choice = (Except.ok none, some rows) ∧
    select_next_question cfg e current hist pool c2 =
      (none, adaptDifficulty cfg current e.window, pool) := by
  refine ⟨get_random_question_of_exhausted d hd rows hrows choice, ?_⟩
  simp [select_next_question, hpool]

theorem adapt_cfg0_hold3 : adaptDifficulty cfg0 3 (engineInit 3).window = 3 := by
  have hwin : (engineInit 3).window = [] := rfl
  rw [hwin, adaptDifficulty_of_between cfg0 3 []
    (by norm_num [cfg0, windowAccuracy]) (by norm_num [cfg0, windowAccuracy])]
  decide

/-- Witness for C3: a one-question pool with no difficulty-3 rows; the
adapter's target from a fresh engine at current difficulty 3 is 3. -/
theorem pool_exhaustion_non_fatal_witness :
    get_random_question 3 (some [⟨1, 1, "q1"⟩]) 0 =
      (Except.ok none, some [⟨1, 1, "q1"⟩]) ∧
    select_next_question cfg0 (engineInit 3) 3 [] [⟨1, 1, "q1"⟩] 0 =
      (none, adaptDifficulty cfg0 3 (engineInit 3).window, [⟨1, 1, "q1"⟩]) :=
  pool_exhaustion_non_fatal 3 (by decide) [⟨1, 1, "q1"⟩] (by decide) 0 cfg0
    (engineInit 3) 3 [] [⟨1, 1, "q1"⟩] (by rw [adapt_cfg0_hold3]; decide) 0

/-- C8 counterexample: in the spec scenario with `window_size = 3`, after the
three correct responses at difficulty 1, the incorrect response at
difficulty 2, and then the two further incorrect responses at difficulty 2,
the window holds the last three records — all incorrect — so the window
accuracy at that point is 0, not 1/3 as the claim states. -/
theorem scenario_accuracy_counterexample :
    windowAccuracy (pushAll 3 [respCorrect1, respCorrect1, respCorrect1, respWrong2,
      respWrong2, respWrong2]) ≠ 1 / 3 ∧
    windowAccuracy (pushAll 3 [respCorrect1, respCorrect1, respCorrect1, respWrong2,
      respWrong2, respWrong2]) = 0 := by
  have hW6 : pushAll 3 [respCorrect1, respCorrect1, respCorrect1, respWrong2,
      respWrong2, respWrong2] = [respWrong2, respWrong2, respWrong2] := rfl
  have ha6 : windowAccuracy [respWrong2, respWrong2, respWrong2] = 0 := by
    norm_num [windowAccuracy, respWrong2, List.filter_cons, List.filter_nil]
  constructor
  · rw [hW6, ha6]
    norm_num
  · rw [hW6, ha6]

/-- C8 amended: with `window_size = 3`, after three correct responses at
difficulty 1 the adapter moves from 1 to 2; after one further incorrect
response at difficulty 2 the window accuracy is 2/3 (between the thresholds)
and the adapter holds at 2; the window accuracy is 1/3 (at or below the low
threshold) already after the first of the two further incorrect responses,
where the adapter returns 1, and after the second it is 0 (still at or below
the low threshold) with the adapter again returning 1. -/
theorem scenario_adaptation :
    adaptDifficulty cfg0 1 (pushAll 3 [respCorrect1, respCorrect1, respCorrect1]) = 2 ∧
    windowAccuracy (pushAll 3 [respCorrect1, respCorrect1, respCorrect1, respWrong2])
      = 2 / 3 ∧
    adaptDifficulty cfg0 2 (pushAll 3 [respCorrect1, respCorrect1, respCorrect1,
      respWrong2]) = 2 ∧
    windowAccuracy (pushAll 3 [respCorrect1, respCorrect1, respCorrect1, respWrong2,
      respWrong2]) = 1 / 3 ∧
    adaptDifficulty cfg0 2 (pushAll 3 [respCorrect1, respCorrect1, respCorrect1,
      respWrong2, respWrong2]) = 1 ∧
    windowAccuracy (pushAll 3 [respCorrect1, respCorrect1, respCorrect1, respWrong2,
      respWrong2, respWrong2]) = 0 ∧
    adaptDifficulty cfg0 2 (pushAll 3 [respCorrect1, respCorrect1, respCorrect1,
      respWrong2, respWrong2, respWrong2]) = 1 := by
  have hW3 : pushAll 3 [respCorrect1, respCorrect1, respCorrect1] =
      [respCorrect1, respCorrect1, respCorrect1] := rfl
  have hW4 : pushAll 3 [respCorrect1, respCorrect1, respCorrect1, respWrong2] =
      [respCorrect1, respCorrect1, respWrong2] := rfl
  have hW5 : pushAll 3 [respCorrect1, respCorrect1, respCorrect1, respWrong2,
      respWrong2] = [respCorrect1, respWrong2, respWrong2] := rfl
  have hW6 : pushAll 3 [respCorrect1, respCorrect1, respCorrect1, respWrong2,
      respWrong2, respWrong2] = [respWrong2, respWrong2, respWrong2] := rfl
  have ha3 : windowAccuracy [respCorrect1, respCorrect1, respCorrect1] = 1 := by
    norm_num [windowAccuracy, respCorrect1, List.filter_cons, List.filter_nil]
  have ha4 : windowAccuracy [respCorrect1, respCorrect1, respWrong2] = 2 / 3 := by
    norm_num [windowAccuracy, respCorrect1, respWrong2, List.filter_cons, List.filter_nil]
  have ha5 : windowAccuracy [respCorrect1, respWrong2, respWrong2] = 1 / 3 := by
    norm_num [windowAccuracy, respCorrect1, respWrong2, List.filter_cons, List.filter_nil]
  have ha6 : windowAccuracy [respWrong2, respWrong2, respWrong2] = 0 := by
    norm_num [windowAccuracy, respWrong2, List.filter_cons, List.filter_nil]
  refine ⟨?_, ?_, ?_, ?_, ?_, ?_, ?_⟩
  · rw [hW3, adaptDifficulty_of_high cfg0 1 _ (by rw [ha3]; norm_num [cfg0])]
    decide
  · rw [hW4, ha4]
  · rw [hW4, adaptDifficulty_of_between cfg0 2 _
      (by rw [ha4]; norm_num [cfg0]) (by rw [ha4]; norm_num [cfg0])]
    decide
  · rw [hW5, ha5]
  · rw [hW5, adaptDifficulty_of_low cfg0 2 _
      (by rw [ha5]; norm_num [cfg0]) (by rw [ha5]; norm_num [cfg0])]
    decide
  · rw [hW6, ha6]
  · rw [hW6, adaptDifficulty_of_low cfg0 2 _
      (by rw [ha6]; norm_num [cfg0]) (by rw [ha6]; norm_num [cfg0])]
    decide

end NeuraVia
